import Mathlib

/-!
Shallow embedding of the Fetcher request pipeline (src/Fetcher.tsx) and
proofs about its retry loop, header composition, response classification,
hook dispatch and loading broadcasts.

Modelling conventions:
* JavaScript values that can appear as a request body are `JsonValue`;
  JS truthiness is `JsonValue.truthy`.
* The transport adapter (the global `fetch`) is an external collaborator:
  it is a function from the attempt index to either a rejection
  (`Except.error`) or a resolved response (`Except.ok`).  A resolved
  response carries the results of its `json()`, `text()` and `blob()`
  capabilities, since body decoding is performed by the transport object.
* Side effects (hook invocations, loading broadcasts, timer arm/clear,
  transport calls) are recorded in an event trace, in program order.
* Thrown values are `Option FetchError`; `none` models throwing the
  JavaScript value `undefined` (an uninitialised `lastError`).
-/

set_option linter.unusedVariables false
set_option linter.unnecessarySimpa false

namespace FetcherTS

/-- A JSON-like JavaScript value, used for request bodies and decoded
structured responses. -/
inductive JsonValue where
  | null : JsonValue
  | bool : Bool → JsonValue
  | num : Int → JsonValue
  | str : String → JsonValue
  | arr : List JsonValue → JsonValue
  | obj : List (String × JsonValue) → JsonValue

/-- JavaScript truthiness of a `JsonValue` (`if (body)` in the source):
`null`, `false`, `0` and the empty string are falsy, everything else
(including empty arrays and objects) is truthy. -/
def JsonValue.truthy : JsonValue → Bool
  | JsonValue.null => false
  | JsonValue.bool b => b
  | JsonValue.num n => n != 0
  | JsonValue.str s => s != ""
  | JsonValue.arr _ => true
  | JsonValue.obj _ => true

/-- Escape of one character inside a JSON string literal
(model of what `JSON.stringify` does to string contents). -/
def escapeChar (c : Char) : String :=
  if c = '"' then "\\\"" else if c = '\\' then "\\\\" else String.singleton c

/-- Escape of string contents for a JSON string literal. -/
def escapeString (s : String) : String :=
  String.join (s.data.map escapeChar)

/-- A quoted JSON string literal. -/
def quoteStr (s : String) : String :=
  "\"" ++ escapeString s ++ "\""

mutual
/-- Model of `JSON.stringify` on a `JsonValue`
(the source applies it to the body at line 82 of src/Fetcher.tsx). -/
def stringify : JsonValue → String
  | JsonValue.null => "null"
  | JsonValue.bool true => "true"
  | JsonValue.bool false => "false"
  | JsonValue.num n => toString n
  | JsonValue.str s => quoteStr s
  | JsonValue.arr xs => "[" ++ stringifyItems xs ++ "]"
  | JsonValue.obj fs => "\x7b" ++ stringifyFields fs ++ "\x7d"

/-- Comma-separated stringification of array items. -/
def stringifyItems : List JsonValue → String
  | [] => ""
  | [x] => stringify x
  | x :: y :: t => stringify x ++ "," ++ stringifyItems (y :: t)

/-- Comma-separated stringification of object fields. -/
def stringifyFields : List (String × JsonValue) → String
  | [] => ""
  | [p] => quoteStr p.1 ++ ":" ++ stringify p.2
  | p :: q :: t => quoteStr p.1 ++ ":" ++ stringify p.2 ++ "," ++ stringifyFields (q :: t)
end

/-- First-match lookup in a header mapping (JavaScript object property read;
keys are unique in mappings built by `setKey`/`spreadInto`, so first match
equals the object's value). -/
def getKey : List (String × String) → String → Option String
  | [], _ => none
  | p :: t, k => if p.1 = k then some p.2 else getKey t k

/-- JavaScript object property assignment `m[k] = v`: an existing key keeps
its position and gets the new value, a new key is appended. -/
def setKey (m : List (String × String)) (k v : String) : List (String × String) :=
  if m.any (fun p => p.1 = k) then
    m.map (fun p => if p.1 = k then (k, v) else p)
  else m ++ [(k, v)]

/-- JavaScript object spread `\x7b ...base, ...hs \x7d`: every binding of
`hs` is assigned into `base` in order (later bindings win). -/
def spreadInto (base : List (String × String)) (hs : List (String × String)) :
    List (String × String) :=
  hs.foldl (fun acc p => setKey acc p.1 p.2) base

/-- JavaScript truthiness of the stored token (`if (this.token)`):
`null` and the empty string are falsy. -/
def tokenTruthy : Option String → Bool
  | none => false
  | some t => t != ""

/-- Header composition of src/Fetcher.tsx lines 66-73: the default
Content-Type is spread first, caller headers after it (caller wins on the
same key), then a truthy token assigns the Authorization header last
(credential wins). -/
def composeHeaders (headers : List (String × String)) (token : Option String) :
    List (String × String) :=
  let finalHeaders := spreadInto [("Content-Type", "application/json")] headers
  match token with
  | some t =>
      if t != "" then setKey finalHeaders "Authorization" ("Bearer " ++ t)
      else finalHeaders
  | none => finalHeaders

/-- Errors an attempt can produce: a transport-level rejection of the
`fetch` call (network failure, abort), a non-ok HTTP status (the `throw` at
line 110), or a body-decoding failure from the response's `json()`. -/
inductive FetchError where
  | transport : String → FetchError
  | status : Nat → FetchError
  | parse : String → FetchError
deriving DecidableEq

/-- A resolved transport response: the `ok` flag and status, the declared
content-type header (`none` models a `null` header read, which the source
coalesces to `""`), and the results of the three decoding capabilities. -/
structure TransportResponse where
  ok : Bool
  status : Nat
  contentType : Option String
  jsonResult : Except FetchError JsonValue
  textResult : String
  blobResult : String

/-- The decoded body handed to after-hooks and returned to the caller. -/
inductive Decoded where
  | json : JsonValue → Decoded
  | text : String → Decoded
  | blob : String → Decoded

/-- Does the character list start with the pattern? -/
def startsWithChars : List Char → List Char → Bool
  | _, [] => true
  | [], _ :: _ => false
  | a :: s, b :: pat => a == b && startsWithChars s pat

/-- Does the character list contain the pattern as a contiguous run? -/
def containsChars : List Char → List Char → Bool
  | [], pat => startsWithChars [] pat
  | a :: t, pat => startsWithChars (a :: t) pat || containsChars t pat

/-- Model of JavaScript `String.prototype.includes`. -/
def strIncludes (s pat : String) : Bool :=
  containsChars s.data pat.data

/-- The declared content type of a response: the header value, with a
missing header read as the empty string (line 116, `|| ""`). -/
def contentTypeOf (r : TransportResponse) : String :=
  r.contentType.getD ""

/-- Response classification of lines 115-125: a content type containing
"application/json" decodes via `json()`, otherwise one containing "text/"
decodes via `text()`, otherwise the body is an opaque blob. -/
def decodeBody (r : TransportResponse) : Except FetchError Decoded :=
  let contentType := contentTypeOf r
  if strIncludes contentType "application/json" then
    Except.map Decoded.json r.jsonResult
  else if strIncludes contentType "text/" then
    Except.ok (Decoded.text r.textResult)
  else
    Except.ok (Decoded.blob r.blobResult)

/-- One iteration of the try block, given the transport's outcome for this
attempt: on a rejected `fetch` the exception propagates before
`clearTimeout` runs (the Boolean records whether the timer was cleared);
on a resolved response the timer is cleared, then a non-ok status throws,
then the body is decoded. -/
def attemptOnce (fetchResult : Except FetchError TransportResponse) :
    Except FetchError Decoded × Bool :=
  match fetchResult with
  | Except.error e => (Except.error e, false)
  | Except.ok r =>
      if r.ok then (decodeBody r, true)
      else (Except.error (FetchError.status r.status), true)

/-- The error of an attempt outcome, if it is one. -/
def exceptErr : Except FetchError Decoded → Option FetchError
  | Except.error e => some e
  | Except.ok _ => none

/-- Observable events of one `request` run, in program order. -/
inductive Event where
  | beforeHook : Nat → String → Event
  | afterHook : Nat → String → Event
  | loading : Bool → String → Event
  | transportCall : Nat → Event
  | timerArm : Nat → Event
  | timerClear : Nat → Event
deriving DecidableEq

/-- The loading-false broadcast, emitted only when `showLoading` is set. -/
def loadingOff (showLoading : Bool) (url : String) : List Event :=
  if showLoading then [Event.loading false url] else []

/-- The `while (attempt < retries)` loop of lines 94-161, with
`fuel = retries - attempt` as the decreasing measure.  Fuel 0 is the
fall-through after the loop: broadcast loading-false and throw the last
recorded error (`none`, i.e. `undefined`, if no attempt ever ran).
Each iteration arms a timer, invokes the transport, and on success clears
the timer, runs the after-hooks, broadcasts loading-false and returns; on
failure it records the error and either rethrows it (budget exhausted,
lines 153-156) or loops. -/
def loopGo (transport : Nat → Except FetchError TransportResponse)
    (afterHooks : List Nat) (url : String) (showLoading : Bool) :
    Nat → Nat → Option FetchError → Except (Option FetchError) Decoded × List Event
  | 0, _, lastError => (Except.error lastError, loadingOff showLoading url)
  | fuel + 1, attempt, _ =>
    let step := attemptOnce (transport attempt)
    let evs := Event.timerArm attempt :: Event.transportCall attempt ::
      (if step.2 then [Event.timerClear attempt] else [])
    match step.1 with
    | Except.ok d =>
        (Except.ok d,
          evs ++ afterHooks.map (fun i => Event.afterHook i url) ++
            loadingOff showLoading url)
    | Except.error e =>
        if fuel = 0 then
          (Except.error (some e), evs ++ loadingOff showLoading url)
        else
          let r := loopGo transport afterHooks url showLoading fuel (attempt + 1) (some e)
          (r.1, evs ++ r.2)

/-- The mutable state of a `Fetcher` instance: base URL, bearer token and
the two append-only middleware lists (hooks are identified by numbers;
invocation order is list order). -/
structure FetcherState where
  baseURL : String
  token : Option String
  beforeHooks : List Nat
  afterHooks : List Nat

/-- A freshly constructed `Fetcher`. -/
def initialState : FetcherState :=
  { baseURL := "", token := none, beforeHooks := [], afterHooks := [] }

/-- `setBaseURL`. -/
def setBaseURL (st : FetcherState) (url : String) : FetcherState :=
  { st with baseURL := url }

/-- `setToken`. -/
def setToken (st : FetcherState) (token : String) : FetcherState :=
  { st with token := some token }

/-- The two middleware hook points. -/
inductive MiddlewareHook where
  | before : MiddlewareHook
  | after : MiddlewareHook

/-- `addMiddleware`: appends a hook to the chosen list. -/
def addMiddleware (st : FetcherState) (hook : MiddlewareHook) (id : Nat) : FetcherState :=
  match hook with
  | MiddlewareHook.before => { st with beforeHooks := st.beforeHooks ++ [id] }
  | MiddlewareHook.after => { st with afterHooks := st.afterHooks ++ [id] }

/-- Caller options of `request` (`FetchOptions`); `none` is an absent
(`undefined`) option, whose default the destructuring at lines 51-61
supplies. -/
structure FetchOptions where
  method : Option String
  headers : Option (List (String × String))
  body : Option JsonValue
  cache : Option String
  debug : Option Bool
  revalidateAfter : Option Int
  timeout : Option Int
  retries : Option Int
  showLoading : Option Bool

/-- The empty options object `\x7b\x7d`. -/
def defaultOpts : FetchOptions :=
  { method := none, headers := none, body := none, cache := none, debug := none,
    revalidateAfter := none, timeout := none, retries := none, showLoading := none }

/-- The composed `RequestInit` value of lines 75-83. -/
structure RequestInitModel where
  method : String
  headers : List (String × String)
  cache : String
  body : Option String

/-- Composition of the outgoing request descriptor (lines 51-83): defaults
are applied, headers are composed, and a truthy body is attached
JSON-stringified while a falsy body leaves the descriptor without one. -/
def buildFetchOptions (st : FetcherState) (opts : FetchOptions) : RequestInitModel :=
  { method := opts.method.getD "GET",
    headers := composeHeaders (opts.headers.getD []) st.token,
    cache := opts.cache.getD "default",
    body :=
      match opts.body with
      | some v => if JsonValue.truthy v then some (stringify v) else none
      | none => none }

/-- The full URL of line 63: a truthy base URL is prepended verbatim. -/
def fullURLOf (st : FetcherState) (url : String) : String :=
  if st.baseURL != "" then st.baseURL ++ url else url

/-- The `request` pipeline of lines 47-162: before-hooks run once, the
loading-true broadcast (if requested) follows, then the retry loop runs
with fuel `retries.toNat` (a non-positive `retries` never enters the
loop).  The result is the pipeline's outcome paired with its event
trace. -/
def request (st : FetcherState) (transport : Nat → Except FetchError TransportResponse)
    (url : String) (opts : FetchOptions) :
    Except (Option FetchError) Decoded × List Event :=
  let retries := opts.retries.getD 1
  let showLoading := opts.showLoading.getD false
  let fullURL := fullURLOf st url
  let beforeEvs := st.beforeHooks.map (fun i => Event.beforeHook i fullURL)
  let loadOn := if showLoading then [Event.loading true fullURL] else []
  let r := loopGo transport st.afterHooks fullURL showLoading retries.toNat 0 none
  (r.1, beforeEvs ++ (loadOn ++ r.2))

/-- Options composed by the `get` verb method (lines 164-182). -/
def getOptions (cache : Option String) (debug : Option Bool)
    (revalidateAfter : Option Int) (timeout : Option Int) (retries : Option Int)
    (showLoading : Option Bool) : FetchOptions :=
  { method := some "GET", headers := none, body := none, cache := cache,
    debug := debug, revalidateAfter := revalidateAfter, timeout := timeout,
    retries := retries, showLoading := showLoading }

/-- Options composed by the `post` verb method (lines 184-201). -/
def postOptions (body : Option JsonValue) (debug : Option Bool) (timeout : Option Int)
    (retries : Option Int) (showLoading : Option Bool) : FetchOptions :=
  { method := some "POST", headers := none, body := body, cache := some "no-store",
    debug := debug, revalidateAfter := none, timeout := timeout, retries := retries,
    showLoading := showLoading }

/-- Options composed by the `put` verb method (lines 203-220). -/
def putOptions (body : Option JsonValue) (debug : Option Bool) (timeout : Option Int)
    (retries : Option Int) (showLoading : Option Bool) : FetchOptions :=
  { method := some "PUT", headers := none, body := body, cache := some "no-store",
    debug := debug, revalidateAfter := none, timeout := timeout, retries := retries,
    showLoading := showLoading }

/-- Options composed by the `delete` verb method (lines 222-237). -/
def deleteOptions (debug : Option Bool) (timeout : Option Int) (retries : Option Int)
    (showLoading : Option Bool) : FetchOptions :=
  { method := some "DELETE", headers := none, body := none, cache := some "no-store",
    debug := debug, revalidateAfter := none, timeout := timeout, retries := retries,
    showLoading := showLoading }

/-- The `get` verb method. -/
def get (st : FetcherState) (transport : Nat → Except FetchError TransportResponse)
    (url : String) (cache : Option String) (debug : Option Bool)
    (revalidateAfter : Option Int) (timeout : Option Int) (retries : Option Int)
    (showLoading : Option Bool) : Except (Option FetchError) Decoded × List Event :=
  request st transport url (getOptions cache debug revalidateAfter timeout retries showLoading)

/-- The `post` verb method. -/
def post (st : FetcherState) (transport : Nat → Except FetchError TransportResponse)
    (url : String) (body : Option JsonValue) (debug : Option Bool) (timeout : Option Int)
    (retries : Option Int) (showLoading : Option Bool) :
    Except (Option FetchError) Decoded × List Event :=
  request st transport url (postOptions body debug timeout retries showLoading)

/-- The `put` verb method. -/
def put (st : FetcherState) (transport : Nat → Except FetchError TransportResponse)
    (url : String) (body : Option JsonValue) (debug : Option Bool) (timeout : Option Int)
    (retries : Option Int) (showLoading : Option Bool) :
    Except (Option FetchError) Decoded × List Event :=
  request st transport url (putOptions body debug timeout retries showLoading)

/-- The `delete` verb method. -/
def delete (st : FetcherState) (transport : Nat → Except FetchError TransportResponse)
    (url : String) (debug : Option Bool) (timeout : Option Int)
    (retries : Option Int) (showLoading : Option Bool) :
    Except (Option FetchError) Decoded × List Event :=
  request st transport url (deleteOptions debug timeout retries showLoading)

/-- Is this event a transport invocation? -/
def isTransportCall : Event → Bool
  | Event.transportCall _ => true
  | _ => false

/-- Number of transport invocations in a trace. -/
def transportCalls (tr : List Event) : Nat :=
  (tr.filter isTransportCall).length

/-- The loading broadcasts of a trace, in order. -/
def loadingEvents (tr : List Event) : List (Bool × String) :=
  tr.filterMap (fun e =>
    match e with
    | Event.loading b u => some (b, u)
    | _ => none)

/-- The after-hook invocations of a trace, in order. -/
def afterEvents (tr : List Event) : List (Nat × String) :=
  tr.filterMap (fun e =>
    match e with
    | Event.afterHook i u => some (i, u)
    | _ => none)

/-- The before-hook invocations of a trace, in order. -/
def beforeEvents (tr : List Event) : List (Nat × String) :=
  tr.filterMap (fun e =>
    match e with
    | Event.beforeHook i u => some (i, u)
    | _ => none)

/-- The attempts whose timers were armed, in order. -/
def timerArmEvents (tr : List Event) : List Nat :=
  tr.filterMap (fun e =>
    match e with
    | Event.timerArm a => some a
    | _ => none)

/-- The attempts whose timers were cleared, in order. -/
def timerClearEvents (tr : List Event) : List Nat :=
  tr.filterMap (fun e =>
    match e with
    | Event.timerClear a => some a
    | _ => none)

/-! Trace bookkeeping lemmas. -/

theorem transportCalls_append (a b : List Event) :
    transportCalls (a ++ b) = transportCalls a + transportCalls b := by
  simp [transportCalls, List.filter_append]

theorem transportCalls_afterMap (l : List Nat) (u : String) :
    transportCalls (l.map (fun i => Event.afterHook i u)) = 0 := by
  induction l with
  | nil => rfl
  | cons a t ih => simpa [transportCalls, List.filter_cons, isTransportCall] using ih

theorem transportCalls_loadingOff (sl : Bool) (u : String) :
    transportCalls (loadingOff sl u) = 0 := by
  cases sl <;> rfl

theorem transportCalls_iterEvents (a : Nat) (cleared : Bool) (rest : List Event) :
    transportCalls (Event.timerArm a :: Event.transportCall a ::
        ((if cleared then [Event.timerClear a] else []) ++ rest)) =
      1 + transportCalls rest := by
  cases cleared <;>
    simp [transportCalls, List.filter_cons, List.filter_append, isTransportCall] <;>
    omega

theorem transportCalls_iterEventsTrue (a : Nat) (rest : List Event) :
    transportCalls (Event.timerArm a :: Event.transportCall a ::
        Event.timerClear a :: rest) = 1 + transportCalls rest := by
  simp [transportCalls, List.filter_cons, isTransportCall]
  omega

theorem loadingEvents_append (a b : List Event) :
    loadingEvents (a ++ b) = loadingEvents a ++ loadingEvents b := by
  simp [loadingEvents, List.filterMap_append]

theorem loadingEvents_afterMap (l : List Nat) (u : String) :
    loadingEvents (l.map (fun i => Event.afterHook i u)) = [] := by
  induction l with
  | nil => rfl
  | cons a t ih => simpa [loadingEvents, List.filterMap_cons] using ih

theorem loadingEvents_loadingOff (sl : Bool) (u : String) :
    loadingEvents (loadingOff sl u) = if sl then [(false, u)] else [] := by
  cases sl <;> rfl

theorem loadingEvents_iterEvents (a : Nat) (cleared : Bool) (rest : List Event) :
    loadingEvents (Event.timerArm a :: Event.transportCall a ::
        ((if cleared then [Event.timerClear a] else []) ++ rest)) =
      loadingEvents rest := by
  cases cleared <;> simp [loadingEvents, List.filterMap_cons, List.filterMap_append]

theorem afterEvents_append (a b : List Event) :
    afterEvents (a ++ b) = afterEvents a ++ afterEvents b := by
  simp [afterEvents, List.filterMap_append]

theorem afterEvents_afterMap (l : List Nat) (u : String) :
    afterEvents (l.map (fun i => Event.afterHook i u)) = l.map (fun i => (i, u)) := by
  induction l with
  | nil => rfl
  | cons a t ih => simpa [afterEvents, List.filterMap_cons] using ih

theorem afterEvents_loadingOff (sl : Bool) (u : String) :
    afterEvents (loadingOff sl u) = [] := by
  cases sl <;> rfl

theorem afterEvents_iterEvents (a : Nat) (cleared : Bool) (rest : List Event) :
    afterEvents (Event.timerArm a :: Event.transportCall a ::
        ((if cleared then [Event.timerClear a] else []) ++ rest)) =
      afterEvents rest := by
  cases cleared <;> simp [afterEvents, List.filterMap_cons, List.filterMap_append]

theorem beforeEvents_append (a b : List Event) :
    beforeEvents (a ++ b) = beforeEvents a ++ beforeEvents b := by
  simp [beforeEvents, List.filterMap_append]

theorem beforeEvents_afterMap (l : List Nat) (u : String) :
    beforeEvents (l.map (fun i => Event.afterHook i u)) = [] := by
  induction l with
  | nil => rfl
  | cons a t ih => simpa [beforeEvents, List.filterMap_cons] using ih

theorem beforeEvents_loadingOff (sl : Bool) (u : String) :
    beforeEvents (loadingOff sl u) = [] := by
  cases sl <;> rfl

theorem beforeEvents_iterEvents (a : Nat) (cleared : Bool) (rest : List Event) :
    beforeEvents (Event.timerArm a :: Event.transportCall a ::
        ((if cleared then [Event.timerClear a] else []) ++ rest)) =
      beforeEvents rest := by
  cases cleared <;> simp [beforeEvents, List.filterMap_cons, List.filterMap_append]

/-! Behaviour of the retry loop. -/

/-- With loading display on, every run of the retry loop broadcasts
loading-false exactly once, as its last loading event, on every exit path
(success, exhaustion, or a skipped loop). -/
theorem loadingEvents_loopGo (transport : Nat → Except FetchError TransportResponse)
    (afterHooks : List Nat) (url : String) :
    ∀ fuel attempt lastError,
      loadingEvents (loopGo transport afterHooks url true fuel attempt lastError).2 =
        [(false, url)] := by
  intro fuel
  induction fuel with
  | zero =>
      intro attempt lastError
      simp [loopGo, loadingOff, loadingEvents]
  | succ f ih =>
      intro attempt lastError
      rcases h : attemptOnce (transport attempt) with ⟨out, cleared⟩
      cases out with
      | ok d =>
          simp [loopGo, h, loadingEvents_iterEvents, loadingEvents_append,
            loadingEvents_afterMap, loadingEvents_loadingOff]
      | error e =>
          by_cases hf : f = 0
          · subst hf
            simp [loopGo, h, loadingEvents_iterEvents, loadingEvents_append,
              loadingEvents_loadingOff]
          · simp [loopGo, h, hf, loadingEvents_iterEvents, ih]

theorem transportCalls_beforeMap (l : List Nat) (u : String) :
    transportCalls (l.map (fun i => Event.beforeHook i u)) = 0 := by
  induction l with
  | nil => rfl
  | cons a t ih => simpa [transportCalls, List.filter_cons, isTransportCall] using ih

theorem transportCalls_loadOn (sl : Bool) (u : String) :
    transportCalls (if sl then [Event.loading true u] else []) = 0 := by
  cases sl <;> rfl

theorem loadingEvents_singleton (b : Bool) (u : String) :
    loadingEvents [Event.loading b u] = [(b, u)] := rfl

theorem loadingEvents_cons_loading (b : Bool) (u : String) (rest : List Event) :
    loadingEvents (Event.loading b u :: rest) = (b, u) :: loadingEvents rest := by
  simp [loadingEvents, List.filterMap_cons]

theorem loadingEvents_beforeMap (l : List Nat) (u : String) :
    loadingEvents (l.map (fun i => Event.beforeHook i u)) = [] := by
  induction l with
  | nil => rfl
  | cons a t ih => simpa [loadingEvents, List.filterMap_cons] using ih

theorem afterEvents_beforeMap (l : List Nat) (u : String) :
    afterEvents (l.map (fun i => Event.beforeHook i u)) = [] := by
  induction l with
  | nil => rfl
  | cons a t ih => simpa [afterEvents, List.filterMap_cons] using ih

theorem afterEvents_loadOn (sl : Bool) (u : String) :
    afterEvents (if sl then [Event.loading true u] else []) = [] := by
  cases sl <;> rfl

theorem beforeEvents_beforeMap (l : List Nat) (u : String) :
    beforeEvents (l.map (fun i => Event.beforeHook i u)) = l.map (fun i => (i, u)) := by
  induction l with
  | nil => rfl
  | cons a t ih => simpa [beforeEvents, List.filterMap_cons] using ih

theorem beforeEvents_loadOn (sl : Bool) (u : String) :
    beforeEvents (if sl then [Event.loading true u] else []) = [] := by
  cases sl <;> rfl

/-- After-hooks run exactly once each, in registration order, when the loop
exits successfully, and never when it exits with an error. -/
theorem afterEvents_loopGo (transport : Nat → Except FetchError TransportResponse)
    (afterHooks : List Nat) (url : String) (showLoading : Bool) :
    ∀ fuel attempt lastError,
      afterEvents (loopGo transport afterHooks url showLoading fuel attempt lastError).2 =
        match (loopGo transport afterHooks url showLoading fuel attempt lastError).1 with
        | Except.ok _ => afterHooks.map (fun i => (i, url))
        | Except.error _ => [] := by
  intro fuel
  induction fuel with
  | zero =>
      intro attempt lastError
      simp [loopGo, afterEvents_loadingOff]
  | succ f ih =>
      intro attempt lastError
      rcases h : attemptOnce (transport attempt) with ⟨out, cleared⟩
      cases out with
      | ok d =>
          simp [loopGo, h, afterEvents_iterEvents, afterEvents_append,
            afterEvents_afterMap, afterEvents_loadingOff]
      | error e =>
          by_cases hf : f = 0
          · subst hf
            simp [loopGo, h, afterEvents_iterEvents, afterEvents_append,
              afterEvents_loadingOff]
          · simp [loopGo, h, hf, afterEvents_iterEvents, ih]

/-- The retry loop never dispatches before-hooks. -/
theorem beforeEvents_loopGo (transport : Nat → Except FetchError TransportResponse)
    (afterHooks : List Nat) (url : String) (showLoading : Bool) :
    ∀ fuel attempt lastError,
      beforeEvents (loopGo transport afterHooks url showLoading fuel attempt lastError).2 =
        [] := by
  intro fuel
  induction fuel with
  | zero =>
      intro attempt lastError
      simp [loopGo, beforeEvents_loadingOff]
  | succ f ih =>
      intro attempt lastError
      rcases h : attemptOnce (transport attempt) with ⟨out, cleared⟩
      cases out with
      | ok d =>
          simp [loopGo, h, beforeEvents_iterEvents, beforeEvents_append,
            beforeEvents_afterMap, beforeEvents_loadingOff]
      | error e =>
          by_cases hf : f = 0
          · subst hf
            simp [loopGo, h, beforeEvents_iterEvents, beforeEvents_append,
              beforeEvents_loadingOff]
          · simp [loopGo, h, hf, beforeEvents_iterEvents, ih]

/-- If every attempt before the last one fails and the last budgeted attempt
succeeds with value `d`, the loop returns `d` and makes exactly `fuel`
transport calls. -/
theorem loopGo_succeeds (transport : Nat → Except FetchError TransportResponse)
    (afterHooks : List Nat) (url : String) (showLoading : Bool) :
    ∀ fuel attempt lastError d, 1 ≤ fuel →
      (∀ j, j + 1 < fuel →
        (exceptErr (attemptOnce (transport (attempt + j))).1).isSome = true) →
      attemptOnce (transport (attempt + (fuel - 1))) = (Except.ok d, true) →
      (loopGo transport afterHooks url showLoading fuel attempt lastError).1 =
          Except.ok d ∧
        transportCalls
          (loopGo transport afterHooks url showLoading fuel attempt lastError).2 = fuel := by
  intro fuel
  induction fuel with
  | zero =>
      intro attempt lastError d h1
      exact absurd h1 (by omega)
  | succ f ih =>
      intro attempt lastError d h1 hfail hsucc
      by_cases hf : f = 0
      · subst hf
        simp only [Nat.add_sub_cancel] at hsucc
        simp only [Nat.add_zero] at hsucc
        constructor
        · simp [loopGo, hsucc]
        · simp [loopGo, hsucc, transportCalls_iterEventsTrue, transportCalls_append,
            transportCalls_afterMap, transportCalls_loadingOff]
      · have h0 : (exceptErr (attemptOnce (transport attempt)).1).isSome = true := by
          have h00 := hfail 0 (by omega)
          simpa using h00
        rcases hstep : attemptOnce (transport attempt) with ⟨out, cleared⟩
        rw [hstep] at h0
        cases out with
        | ok d2 => simp [exceptErr] at h0
        | error e =>
            have hfail2 : ∀ j, j + 1 < f →
                (exceptErr (attemptOnce (transport (attempt + 1 + j))).1).isSome = true := by
              intro j hj
              have harith : attempt + 1 + j = attempt + (j + 1) := by omega
              rw [harith]
              exact hfail (j + 1) (by omega)
            have hsucc2 : attemptOnce (transport (attempt + 1 + (f - 1))) =
                (Except.ok d, true) := by
              have harith : attempt + 1 + (f - 1) = attempt + (f + 1 - 1) := by omega
              rw [harith]
              exact hsucc
            have ihres := ih (attempt + 1) (some e) d (by omega) hfail2 hsucc2
            constructor
            · simp [loopGo, hstep, hf, ihres.1]
            · simp only [loopGo, hstep, hf]
              simp [transportCalls_iterEvents, ihres.2]
              omega

/-- If every budgeted attempt fails, the loop rethrows exactly the error of
the last attempt and makes exactly `fuel` transport calls. -/
theorem loopGo_all_fail (transport : Nat → Except FetchError TransportResponse)
    (afterHooks : List Nat) (url : String) (showLoading : Bool) :
    ∀ fuel attempt lastError, 1 ≤ fuel →
      (∀ j, j < fuel →
        (exceptErr (attemptOnce (transport (attempt + j))).1).isSome = true) →
      (loopGo transport afterHooks url showLoading fuel attempt lastError).1 =
          Except.error (exceptErr (attemptOnce (transport (attempt + (fuel - 1)))).1) ∧
        transportCalls
          (loopGo transport afterHooks url showLoading fuel attempt lastError).2 = fuel := by
  intro fuel
  induction fuel with
  | zero =>
      intro attempt lastError h1
      exact absurd h1 (by omega)
  | succ f ih =>
      intro attempt lastError h1 hfail
      have h0 : (exceptErr (attemptOnce (transport attempt)).1).isSome = true := by
        have h00 := hfail 0 (by omega)
        simpa using h00
      rcases hstep : attemptOnce (transport attempt) with ⟨out, cleared⟩
      rw [hstep] at h0
      cases out with
      | ok d2 => simp [exceptErr] at h0
      | error e =>
          by_cases hf : f = 0
          · subst hf
            constructor
            · simp [loopGo, hstep, exceptErr]
            · simp [loopGo, hstep, transportCalls_iterEvents, transportCalls_append,
                transportCalls_loadingOff]
          · have hfail2 : ∀ j, j < f →
                (exceptErr (attemptOnce (transport (attempt + 1 + j))).1).isSome = true := by
              intro j hj
              have harith : attempt + 1 + j = attempt + (j + 1) := by omega
              rw [harith]
              exact hfail (j + 1) (by omega)
            have ihres := ih (attempt + 1) (some e) (by omega) hfail2
            have harith : attempt + 1 + (f - 1) = attempt + (f + 1 - 1) := by omega
            rw [harith] at ihres
            constructor
            · simp [loopGo, hstep, hf, ihres.1]
            · simp only [loopGo, hstep, hf]
              simp [transportCalls_iterEvents, ihres.2]
              omega

/-! Header composition lemmas. -/

/-- The value the last binding of a key in a header list gives it
(JavaScript object-literal semantics: later duplicate keys win). -/
def lastLookup : List (String × String) → String → Option String
  | [], _ => none
  | p :: t, k =>
      match lastLookup t k with
      | some v => some v
      | none => if p.1 = k then some p.2 else none

theorem getKey_map_replace_same (m : List (String × String)) (k v : String)
    (h : m.any (fun p => p.1 = k) = true) :
    getKey (m.map (fun p => if p.1 = k then (k, v) else p)) k = some v := by
  induction m with
  | nil => simp at h
  | cons p t ih =>
      by_cases hp : p.1 = k
      · simp [getKey, hp]
      · simp only [List.any_cons, Bool.or_eq_true, decide_eq_true_eq] at h
        rcases h with h | h
        · exact absurd h hp
        · simp only [List.map_cons, hp, if_false, getKey, if_neg hp]
          exact ih h

theorem getKey_map_replace_other (m : List (String × String)) (k v k' : String)
    (hne : k ≠ k') :
    getKey (m.map (fun p => if p.1 = k then (k, v) else p)) k' = getKey m k' := by
  induction m with
  | nil => rfl
  | cons p t ih =>
      by_cases hp : p.1 = k
      · simp [getKey, hp, hne, ih]
      · simp [getKey, hp, ih]

theorem getKey_append_single_same (m : List (String × String)) (k v : String)
    (h : m.any (fun p => p.1 = k) = false) :
    getKey (m ++ [(k, v)]) k = some v := by
  induction m with
  | nil => simp [getKey]
  | cons p t ih =>
      rw [List.any_cons] at h
      have h1 : p.1 ≠ k := by
        intro hk
        simp [hk] at h
      have h2 : t.any (fun p => p.1 = k) = false := by
        cases hb : t.any (fun p => p.1 = k) with
        | false => rfl
        | true => simp [hb] at h
      simp only [List.cons_append, getKey, if_neg h1]
      exact ih h2

theorem getKey_setKey_same (m : List (String × String)) (k v : String) :
    getKey (setKey m k v) k = some v := by
  unfold setKey
  by_cases h : m.any (fun p => p.1 = k) = true
  · simp only [h, if_true]
    exact getKey_map_replace_same m k v h
  · simp only [h, if_false]
    refine getKey_append_single_same m k v ?_
    cases hb : m.any (fun p => p.1 = k) with
    | false => rfl
    | true => exact absurd hb h

theorem getKey_append_single_other (m : List (String × String)) (k v k' : String)
    (hne : k ≠ k') :
    getKey (m ++ [(k, v)]) k' = getKey m k' := by
  induction m with
  | nil => simp [getKey, if_neg hne]
  | cons p t ih =>
      simp only [List.cons_append, getKey, List.append_eq, ih]

theorem getKey_setKey_other (m : List (String × String)) (k v k' : String)
    (hne : k ≠ k') :
    getKey (setKey m k v) k' = getKey m k' := by
  unfold setKey
  by_cases h : m.any (fun p => p.1 = k) = true
  · simp only [h, if_true]
    exact getKey_map_replace_other m k v k' hne
  · simp only [h, if_false]
    exact getKey_append_single_other m k v k' hne

/-- Lookup in a spread mapping: a key bound by the overriding list takes its
last bound value there; otherwise the base mapping answers. -/
theorem getKey_spreadInto (hs : List (String × String)) :
    ∀ (base : List (String × String)) (k : String),
      getKey (spreadInto base hs) k =
        match lastLookup hs k with
        | some v => some v
        | none => getKey base k := by
  induction hs with
  | nil =>
      intro base k
      rfl
  | cons p t ih =>
      intro base k
      have hstep : spreadInto base (p :: t) = spreadInto (setKey base p.1 p.2) t := rfl
      rw [hstep, ih]
      cases hlt : lastLookup t k with
      | some v => simp [lastLookup, hlt]
      | none =>
          by_cases hp : p.1 = k
          · subst hp
            simp [lastLookup, hlt, getKey_setKey_same]
          · simp [lastLookup, hlt, hp, getKey_setKey_other base p.1 p.2 k hp]

/-! Concrete fixtures used by witnesses and counterexamples. -/

/-- The JSON value decoded in the spec's worked scenario. -/
def jsonAbout : JsonValue := JsonValue.obj [("about", JsonValue.str "text")]

/-- An ok JSON response. -/
def okJsonResponse : TransportResponse :=
  { ok := true, status := 200, contentType := some "application/json",
    jsonResult := Except.ok jsonAbout, textResult := "", blobResult := "" }

/-- A transport that always resolves successfully. -/
def alwaysOkTransport : Nat → Except FetchError TransportResponse :=
  fun _ => Except.ok okJsonResponse

/-- A transport whose `fetch` call always rejects. -/
def failingTransport : Nat → Except FetchError TransportResponse :=
  fun _ => Except.error (FetchError.transport "network down")

/-- A transport that rejects with a distinct error on each of the first two
attempts. -/
def alwaysFailTransport : Nat → Except FetchError TransportResponse :=
  fun i => Except.error (FetchError.transport (if i = 0 then "first" else "second"))

/-- A transport that fails once with a 500 status and then succeeds. -/
def retryTransport : Nat → Except FetchError TransportResponse :=
  fun i => if i = 0 then Except.error (FetchError.status 500)
           else Except.ok okJsonResponse

/-- Options with a retry budget of 2. -/
def optsRetriesTwo : FetchOptions := { defaultOpts with retries := some 2 }

/-- Options with a retry budget of 1 (the default). -/
def optsRetriesOne : FetchOptions := { defaultOpts with retries := some 1 }

/-- Options with a retry budget of 0. -/
def optsRetriesZero : FetchOptions := { defaultOpts with retries := some 0 }

/-- Options with a negative retry budget. -/
def optsRetriesNeg : FetchOptions := { defaultOpts with retries := some (-1) }

/-- Options with a retry budget of 2 and the loading broadcast enabled. -/
def optsLoading : FetchOptions :=
  { defaultOpts with retries := some 2, showLoading := some true }

/-! Claim theorems. -/

/-- C1: for every configuration with retries = N ≥ 1, if the transport call
fails on attempts 1 through N-1 and succeeds on attempt N (with the response
decoding to `d`), then `request` — and hence every verb method, each of which
delegates to it — returns the decoded success value and the transport is
invoked exactly N times. -/
theorem request_retry_success (st : FetcherState)
    (transport : Nat → Except FetchError TransportResponse) (url : String)
    (opts : FetchOptions) (N : Nat) (d : Decoded)
    (hret : opts.retries = some (Int.ofNat N)) (hN : 1 ≤ N)
    (hfail : ∀ j, j + 1 < N →
      (exceptErr (attemptOnce (transport j)).1).isSome = true)
    (hsucc : attemptOnce (transport (N - 1)) = (Except.ok d, true)) :
    (request st transport url opts).1 = Except.ok d ∧
      transportCalls (request st transport url opts).2 = N := by
  have hfail0 : ∀ j, j + 1 < N →
      (exceptErr (attemptOnce (transport (0 + j))).1).isSome = true := by
    intro j hj
    simpa using hfail j hj
  have hsucc0 : attemptOnce (transport (0 + (N - 1))) = (Except.ok d, true) := by
    simpa using hsucc
  have hmain := loopGo_succeeds transport st.afterHooks (fullURLOf st url)
    (opts.showLoading.getD false) N 0 none d hN hfail0 hsucc0
  constructor
  · simpa [request, hret] using hmain.1
  · simpa [request, hret, transportCalls_append, transportCalls_beforeMap,
      transportCalls_loadOn] using hmain.2

/-- C1 witness: a budget of 2 against a transport failing once with a 500
status and then delivering JSON. -/
theorem request_retry_success_witness :
    (request initialState retryTransport "/about" optsRetriesTwo).1 =
        Except.ok (Decoded.json jsonAbout) ∧
      transportCalls (request initialState retryTransport "/about" optsRetriesTwo).2 = 2 :=
  request_retry_success initialState retryTransport "/about" optsRetriesTwo 2
    (Decoded.json jsonAbout) rfl (by omega)
    (fun j hj => by
      have hj0 : j = 0 := by omega
      subst hj0
      rfl)
    rfl

/-- C2: for every configuration with retries = N ≥ 1, if the transport call
fails on every attempt, then `request` raises exactly the error object
produced on attempt N (the last one), unwrapped and unmodified, and the
transport is invoked exactly N times. -/
theorem request_retry_exhaustion (st : FetcherState)
    (transport : Nat → Except FetchError TransportResponse) (url : String)
    (opts : FetchOptions) (N : Nat)
    (hret : opts.retries = some (Int.ofNat N)) (hN : 1 ≤ N)
    (hfail : ∀ j, j < N →
      (exceptErr (attemptOnce (transport j)).1).isSome = true) :
    (request st transport url opts).1 =
        Except.error (exceptErr (attemptOnce (transport (N - 1))).1) ∧
      transportCalls (request st transport url opts).2 = N := by
  have hfail0 : ∀ j, j < N →
      (exceptErr (attemptOnce (transport (0 + j))).1).isSome = true := by
    intro j hj
    simpa using hfail j hj
  have hmain := loopGo_all_fail transport st.afterHooks (fullURLOf st url)
    (opts.showLoading.getD false) N 0 none hN hfail0
  constructor
  · have h1 := hmain.1
    rw [Nat.zero_add] at h1
    simpa [request, hret] using h1
  · simpa [request, hret, transportCalls_append, transportCalls_beforeMap,
      transportCalls_loadOn] using hmain.2

/-- C2 witness: a budget of 2 against a transport failing both attempts; the
raised error is exactly the second attempt's error. -/
theorem request_retry_exhaustion_witness :
    (request initialState alwaysFailTransport "/x" optsRetriesTwo).1 =
        Except.error (some (FetchError.transport "second")) ∧
      transportCalls (request initialState alwaysFailTransport "/x" optsRetriesTwo).2 = 2 := by
  have h := request_retry_exhaustion initialState alwaysFailTransport "/x"
    optsRetriesTwo 2 rfl (by omega)
    (fun j hj => by
      match j, hj with
      | 0, _ => rfl
      | 1, _ => rfl)
  exact ⟨h.1, h.2⟩

/-- C3 (code behaviour at the failing input): when the transport call
rejects, the catch path runs without `clearTimeout` — the timer armed for
the attempt is never disarmed, although the attempt has concluded. -/
theorem timer_left_pending_on_rejection :
    timerArmEvents (request initialState failingTransport "/x" optsRetriesOne).2 = [0] ∧
      timerClearEvents (request initialState failingTransport "/x" optsRetriesOne).2 = [] :=
  ⟨rfl, rfl⟩

/-- C5: for every request that runs to completion with showLoading enabled,
the loading broadcasts for its URL are exactly [true, false]: one true
before the first attempt, one false at termination, on every outcome. -/
theorem request_loading_sequence (st : FetcherState)
    (transport : Nat → Except FetchError TransportResponse) (url : String)
    (opts : FetchOptions) (h : opts.showLoading = some true) :
    loadingEvents (request st transport url opts).2 =
      [(true, fullURLOf st url), (false, fullURLOf st url)] := by
  simp [request, h, loadingEvents_append, loadingEvents_beforeMap,
    loadingEvents_singleton, loadingEvents_cons_loading, loadingEvents_loopGo]

/-- C5 witness: a failing double-attempt run with loading enabled broadcasts
exactly [true, false]. -/
theorem request_loading_sequence_witness :
    loadingEvents (request initialState alwaysFailTransport "/x" optsLoading).2 =
      [(true, "/x"), (false, "/x")] :=
  request_loading_sequence initialState alwaysFailTransport "/x" optsLoading rfl

/-- C8 (counterexample): with retries = 0 the request is silently executed,
not guarded: the loop is skipped, the transport is never invoked — even one
that would succeed — and the pipeline throws the uninitialised last error
(`undefined`, modelled as `none`) instead of signalling a configuration
error. -/
theorem request_retries_zero_counterexample :
    (request initialState alwaysOkTransport "/about" optsRetriesZero).1 =
        Except.error none ∧
      transportCalls (request initialState alwaysOkTransport "/about" optsRetriesZero).2 = 0 :=
  ⟨rfl, rfl⟩

/-- C8 (amended): a caller-supplied retries value at most 0 is not guarded
against: the retry loop body never runs, the transport is invoked zero
times, and the request rejects with the uninitialised last error
(`undefined`). -/
theorem request_retries_nonpositive (st : FetcherState)
    (transport : Nat → Except FetchError TransportResponse) (url : String)
    (opts : FetchOptions) (r : Int) (hret : opts.retries = some r) (hr : r ≤ 0) :
    (request st transport url opts).1 = Except.error none ∧
      transportCalls (request st transport url opts).2 = 0 := by
  have hfuel : r.toNat = 0 := by omega
  constructor
  · simp [request, hret, hfuel, loopGo]
  · simp [request, hret, hfuel, loopGo, transportCalls_append,
      transportCalls_beforeMap, transportCalls_loadOn, transportCalls_loadingOff]

/-- C8 amended-claim witness: retries = -1 makes zero attempts and rejects
with `undefined`. -/
theorem request_retries_nonpositive_witness :
    (request initialState alwaysOkTransport "/x" optsRetriesNeg).1 =
        Except.error none ∧
      transportCalls (request initialState alwaysOkTransport "/x" optsRetriesNeg).2 = 0 :=
  request_retries_nonpositive initialState alwaysOkTransport "/x" optsRetriesNeg
    (-1) rfl (by norm_num)

/-- C4: the after-hooks are dispatched exactly once each, in registration
order, when the final outcome is a success, and never when the final
outcome is a failure — in particular never once per retry attempt. -/
theorem request_after_hooks (st : FetcherState)
    (transport : Nat → Except FetchError TransportResponse) (url : String)
    (opts : FetchOptions) :
    afterEvents (request st transport url opts).2 =
      match (request st transport url opts).1 with
      | Except.ok _ => st.afterHooks.map (fun i => (i, fullURLOf st url))
      | Except.error _ => [] := by
  simp only [request]
  simp [afterEvents_append, afterEvents_beforeMap, afterEvents_loadOn,
    afterEvents_loopGo]

/-- C9: the before-hooks are dispatched exactly once each, in registration
order, as the very first events of the trace — before the retry loop's
first attempt, never once per attempt. -/
theorem request_before_hooks (st : FetcherState)
    (transport : Nat → Except FetchError TransportResponse) (url : String)
    (opts : FetchOptions) :
    (request st transport url opts).2.take st.beforeHooks.length =
        st.beforeHooks.map (fun i => Event.beforeHook i (fullURLOf st url)) ∧
      beforeEvents ((request st transport url opts).2.drop st.beforeHooks.length) =
        [] := by
  have hlen : (st.beforeHooks.map
      (fun i => Event.beforeHook i (fullURLOf st url))).length =
        st.beforeHooks.length := by simp
  constructor
  · simp only [request]
    rw [← hlen, List.take_left]
  · simp only [request]
    rw [← hlen, List.drop_left]
    simp [beforeEvents_append, beforeEvents_loadOn, beforeEvents_loopGo]

/-- The Content-Type entry of a composed header mapping: the caller's last
binding if one exists, the default application/json otherwise. -/
theorem getKey_composeHeaders_ct (hs : List (String × String))
    (token : Option String) :
    getKey (composeHeaders hs token) "Content-Type" =
      match lastLookup hs "Content-Type" with
      | some v => some v
      | none => some "application/json" := by
  unfold composeHeaders
  have hbase : getKey (spreadInto [("Content-Type", "application/json")] hs)
      "Content-Type" =
        match lastLookup hs "Content-Type" with
        | some v => some v
        | none => some "application/json" := by
    rw [getKey_spreadInto]
    cases lastLookup hs "Content-Type" with
    | some v => rfl
    | none => rfl
  cases token with
  | none => exact hbase
  | some t =>
      by_cases ht : (t != "") = true
      · simp only [ht, if_true]
        rw [getKey_setKey_other _ _ _ _ (by decide)]
        exact hbase
      · simp only [ht, if_false]
        exact hbase

/-- C6: the composed header mapping carries the default Content-Type
application/json unless the caller's headers bind that key (caller wins for
Content-Type), and whenever the credential token is set, the Authorization
header equals "Bearer " ++ token, regardless of any caller-supplied
Authorization binding (credential wins for Authorization). -/
theorem request_header_composition (st : FetcherState) (opts : FetchOptions)
    (t : String) :
    (lastLookup (opts.headers.getD []) "Content-Type" = none →
        getKey (buildFetchOptions st opts).headers "Content-Type" =
          some "application/json") ∧
      (∀ v, lastLookup (opts.headers.getD []) "Content-Type" = some v →
        getKey (buildFetchOptions st opts).headers "Content-Type" = some v) ∧
      (st.token = some t → t ≠ "" →
        getKey (buildFetchOptions st opts).headers "Authorization" =
          some ("Bearer " ++ t)) := by
  refine ⟨?_, ?_, ?_⟩
  · intro hnone
    simp only [buildFetchOptions]
    rw [getKey_composeHeaders_ct, hnone]
  · intro v hv
    simp only [buildFetchOptions]
    rw [getKey_composeHeaders_ct, hv]
  · intro htok hne
    simp only [buildFetchOptions, composeHeaders, htok]
    have hbne : (t != "") = true := by simpa using hne
    rw [if_pos hbne]
    exact getKey_setKey_same _ _ _

/-- Options carrying a caller-supplied Content-Type header. -/
def optsCallerCT : FetchOptions :=
  { defaultOpts with headers := some [("Content-Type", "text/plain")] }

/-- A fetcher state with a bearer token installed via `setToken`. -/
def stateWithToken : FetcherState := setToken initialState "jwt"

/-- C6 witness: default headers get application/json; a caller-supplied
Content-Type wins; a set token forces the Authorization header. -/
theorem request_header_composition_witness :
    getKey (buildFetchOptions stateWithToken defaultOpts).headers "Content-Type" =
        some "application/json" ∧
      getKey (buildFetchOptions stateWithToken optsCallerCT).headers "Content-Type" =
        some "text/plain" ∧
      getKey (buildFetchOptions stateWithToken defaultOpts).headers "Authorization" =
        some ("Bearer " ++ "jwt") :=
  ⟨(request_header_composition stateWithToken defaultOpts "jwt").1 rfl,
    (request_header_composition stateWithToken optsCallerCT "jwt").2.1 "text/plain" rfl,
    (request_header_composition stateWithToken defaultOpts "jwt").2.2 rfl (by decide)⟩

/-- C7: exactly one decoding strategy applies to a successful response,
chosen by the declared content kind: a kind containing "application/json"
decodes as structured data, a kind containing "text/" (and not the JSON
marker, which the source checks first) decodes as plain text, and any other
kind — including an absent content-type — decodes as an opaque binary
value. -/
theorem response_classification (r : TransportResponse) :
    (strIncludes (contentTypeOf r) "application/json" = true →
        decodeBody r = Except.map Decoded.json r.jsonResult) ∧
      (strIncludes (contentTypeOf r) "application/json" = false →
        strIncludes (contentTypeOf r) "text/" = true →
        decodeBody r = Except.ok (Decoded.text r.textResult)) ∧
      (strIncludes (contentTypeOf r) "application/json" = false →
        strIncludes (contentTypeOf r) "text/" = false →
        decodeBody r = Except.ok (Decoded.blob r.blobResult)) ∧
      (r.contentType = none →
        decodeBody r = Except.ok (Decoded.blob r.blobResult)) := by
  refine ⟨?_, ?_, ?_, ?_⟩
  · intro h
    simp [decodeBody, h]
  · intro h1 h2
    simp [decodeBody, h1, h2]
  · intro h1 h2
    simp [decodeBody, h1, h2]
  · intro h
    have hct : contentTypeOf r = "" := by simp [contentTypeOf, h]
    have h1 : strIncludes "" "application/json" = false := by decide
    have h2 : strIncludes "" "text/" = false := by decide
    simp [decodeBody, hct, h1, h2]

/-- A successful response declared text/plain with body "hello". -/
def textResponse : TransportResponse :=
  { ok := true, status := 200, contentType := some "text/plain",
    jsonResult := Except.error (FetchError.parse "not json"),
    textResult := "hello", blobResult := "hello" }

/-- A successful response with a binary content kind. -/
def binaryResponse : TransportResponse :=
  { ok := true, status := 200, contentType := some "application/octet-stream",
    jsonResult := Except.error (FetchError.parse "not json"),
    textResult := "", blobResult := "bytes" }

/-- A successful response with no content-type header at all. -/
def headerlessResponse : TransportResponse :=
  { ok := true, status := 200, contentType := none,
    jsonResult := Except.error (FetchError.parse "not json"),
    textResult := "", blobResult := "bytes" }

/-- C7 witness: the three strategies at concrete responses — JSON decodes
structured, text/plain decodes as the string "hello", an octet-stream kind
and an absent kind both decode as the opaque blob. -/
theorem response_classification_witness :
    decodeBody okJsonResponse = Except.ok (Decoded.json jsonAbout) ∧
      decodeBody textResponse = Except.ok (Decoded.text "hello") ∧
      decodeBody binaryResponse = Except.ok (Decoded.blob "bytes") ∧
      decodeBody headerlessResponse = Except.ok (Decoded.blob "bytes") :=
  ⟨(response_classification okJsonResponse).1 (by decide),
    (response_classification textResponse).2.1 (by decide) (by decide),
    (response_classification binaryResponse).2.2.1 (by decide) (by decide),
    (response_classification headerlessResponse).2.2.2 rfl⟩

/-- C10: a falsy body argument of post or put — absent, null, 0, the empty
string, or false — attaches no body to the outgoing request at all, while
every truthy body is attached as its JSON-stringified form. -/
theorem request_body_attachment (st : FetcherState) (dbg : Option Bool)
    (tm rt : Option Int) (sl : Option Bool) :
    ((buildFetchOptions st (postOptions none dbg tm rt sl)).body = none) ∧
      ((buildFetchOptions st (postOptions (some JsonValue.null) dbg tm rt sl)).body =
        none) ∧
      ((buildFetchOptions st
        (postOptions (some (JsonValue.num 0)) dbg tm rt sl)).body = none) ∧
      ((buildFetchOptions st
        (postOptions (some (JsonValue.str "")) dbg tm rt sl)).body = none) ∧
      ((buildFetchOptions st
        (postOptions (some (JsonValue.bool false)) dbg tm rt sl)).body = none) ∧
      (∀ v, JsonValue.truthy v = true →
        (buildFetchOptions st (postOptions (some v) dbg tm rt sl)).body =
          some (stringify v)) ∧
      ((buildFetchOptions st (putOptions none dbg tm rt sl)).body = none) ∧
      ((buildFetchOptions st (putOptions (some JsonValue.null) dbg tm rt sl)).body =
        none) ∧
      ((buildFetchOptions st
        (putOptions (some (JsonValue.num 0)) dbg tm rt sl)).body = none) ∧
      ((buildFetchOptions st
        (putOptions (some (JsonValue.str "")) dbg tm rt sl)).body = none) ∧
      ((buildFetchOptions st
        (putOptions (some (JsonValue.bool false)) dbg tm rt sl)).body = none) ∧
      (∀ v, JsonValue.truthy v = true →
        (buildFetchOptions st (putOptions (some v) dbg tm rt sl)).body =
          some (stringify v)) := by
  refine ⟨rfl, rfl, ?_, ?_, rfl, ?_, rfl, rfl, ?_, ?_, rfl, ?_⟩
  · simp [buildFetchOptions, postOptions, JsonValue.truthy]
  · simp [buildFetchOptions, postOptions, JsonValue.truthy]
  · intro v hv
    simp [buildFetchOptions, postOptions, hv]
  · simp [buildFetchOptions, putOptions, JsonValue.truthy]
  · simp [buildFetchOptions, putOptions, JsonValue.truthy]
  · intro v hv
    simp [buildFetchOptions, putOptions, hv]

/-- C10 witness: at concrete inputs, a falsy body (absent, 0) attaches
nothing and a truthy body attaches its stringified form. -/
theorem request_body_attachment_witness :
    ((buildFetchOptions initialState
        (postOptions none none none none none)).body = none) ∧
      ((buildFetchOptions initialState
        (postOptions (some (JsonValue.num 0)) none none none none)).body = none) ∧
      ((buildFetchOptions initialState
        (putOptions (some (JsonValue.num 7)) none none none none)).body =
          some (stringify (JsonValue.num 7))) :=
  ⟨(request_body_attachment initialState none none none none).1,
    (request_body_attachment initialState none none none none).2.2.1,
    (request_body_attachment initialState none none none none).2.2.2.2.2.2.2.2.2.2.2
      (JsonValue.num 7) rfl⟩

end FetcherTS
